import Mathlib

/-!
Verification of the frame-extraction and analysis-orchestration core of the
video-to-prompts application.

The TypeScript sources are embedded shallowly:

* JavaScript numbers are modelled as exact rationals (`ℚ`) and integers (`ℤ`);
  `NaN` / non-finite outcomes of `parseInt` / `parseFloat` / division are
  modelled as `Option.none`.
* `Array.prototype.sort` (ECMAScript requires a stable sort; for a consistent
  comparator the result is uniquely determined) is modelled by a stable
  insertion sort `jsSortBy` over the boolean relation `comparator a b ≤ 0`.
* External collaborators (the ffmpeg/ffprobe binaries, the LM Studio HTTP
  endpoint, node's `crypto` MD5 and the filesystem) are parameters of the
  embedded functions: the diagnostic stream, the directory listing, the
  per-call comparison outcome and the hex digest function are inputs.
* `String.prototype.localeCompare` is modelled by code-point comparison, which
  agrees with it on the ASCII same-case file paths the application produces.
-/

/-- Model of JavaScript truthiness for an optional numeric field: `undefined`
and `0` are falsy, every other number is truthy. -/
def jsTruthy : Option ℚ → Bool
  | none => false
  | some x => decide (x ≠ 0)

/-- Model of `Math.round` on a finite number: round half away from zero is
`⌊x + 1/2⌋` for the non-negative values appearing here; JavaScript rounds
half toward +∞ in general, which is exactly `⌊x + 1/2⌋`. -/
def jsRound (x : ℚ) : ℤ := ⌊x + (1 : ℚ)/2⌋

/-- Pointwise lift of `jsRound` with `none` standing for `NaN`/non-finite. -/
def jsRoundOpt : Option ℚ → Option ℤ
  | none => none
  | some x => some (jsRound x)

/-- JavaScript division with `none` for `NaN` operands and for division by
zero (whose JavaScript result, `±Infinity` or `NaN`, is non-finite). -/
def jsDiv : Option ℚ → Option ℚ → Option ℚ
  | some a, some b => if b = 0 then none else some (a / b)
  | _, _ => none

/-- Multiplication on the `NaN`-aware numbers. -/
def jsMul : Option ℚ → Option ℚ → Option ℚ
  | some a, some b => some (a * b)
  | _, _ => none

/-- Value of a non-empty digit string. -/
def digitsToNat (ds : List Char) : ℕ :=
  ds.foldl (fun acc c => acc * 10 + (c.toNat - '0'.toNat)) 0

/-- Model of `parseInt(s)` (radix 10): skip leading whitespace, optional
sign, then a maximal digit prefix; `none` models `NaN` (no digits). -/
def jsParseInt (s : String) : Option ℤ :=
  let cs := s.toList.dropWhile Char.isWhitespace
  let sign : ℤ × List Char :=
    match cs with
    | '-' :: r => (-1, r)
    | '+' :: r => (1, r)
    | _ => (1, cs)
  let ds := sign.2.takeWhile Char.isDigit
  if ds.isEmpty then none else some (sign.1 * (digitsToNat ds : ℤ))

/-- Model of `parseFloat(s)` restricted to the decimal forms produced here:
skip leading whitespace, optional sign, digits, optional point and digits.
`none` models `NaN` (no digits at all). Exponents are not modelled; none of
the parsed fields carry them. -/
def jsParseFloat (s : String) : Option ℚ :=
  let cs := s.toList.dropWhile Char.isWhitespace
  let sign : ℚ × List Char :=
    match cs with
    | '-' :: r => (-1, r)
    | '+' :: r => (1, r)
    | _ => (1, cs)
  let ip := sign.2.takeWhile Char.isDigit
  let rest := sign.2.drop ip.length
  let fp :=
    match rest with
    | '.' :: r => r.takeWhile Char.isDigit
    | _ => []
  if ip.isEmpty && fp.isEmpty then none
  else some (sign.1 * ((digitsToNat ip : ℚ) + (digitsToNat fp : ℚ) / (10 : ℚ) ^ fp.length))

/-- Strict lexicographic comparison of character lists, modelling the
ECMAScript code-unit order on strings (identical to code-point order on the
ASCII paths handled here). -/
def charListLt : List Char → List Char → Bool
  | [], [] => false
  | [], _ :: _ => true
  | _ :: _, [] => false
  | a :: as, b :: bs => if a < b then true else if b < a then false else charListLt as bs

/-- Model of `a.localeCompare(b)`: negative, zero or positive. The default
collation is approximated by code-unit order, which coincides with it on the
ASCII same-case paths this application generates. -/
def localeCompare (a b : String) : ℤ :=
  if charListLt a.toList b.toList then -1
  else if charListLt b.toList a.toList then 1
  else 0

/-- One step of the stable sort: insert `a` in front of the first element `b`
with `le a b`. -/
def jsInsert (le : α → α → Bool) (a : α) : List α → List α
  | [] => [a]
  | b :: l => if le a b then a :: b :: l else b :: jsInsert le a l

/-- Stable insertion sort modelling `Array.prototype.sort(comparator)` with
`le a b = (comparator a b ≤ 0)`: for a consistent comparator, ECMAScript fully
determines the (stable) result, and it equals this sort's output. -/
def jsSortBy (le : α → α → Bool) : List α → List α
  | [] => []
  | a :: l => jsInsert le a (jsSortBy le l)

/-- The boolean comparison used when JavaScript sorts plain strings (the
`.sort()` calls with no comparator): `a` sorts no later than `b` when `b` is
not strictly smaller. -/
def strLe (a b : String) : Bool := !(charListLt b.toList a.toList)

/-- Sorting a list of strings with `Array.prototype.sort()` (no comparator). -/
def jsSortStrings (l : List String) : List String := jsSortBy strLe l

/-- Model of `String.prototype.trim` (the whitespace actually occurring in
model responses: space, tab, carriage return, newline). -/
def trimChars (cs : List Char) : List Char :=
  ((cs.dropWhile Char.isWhitespace).reverse.dropWhile Char.isWhitespace).reverse

/-- String wrapper of `trimChars`. -/
def jsTrim (s : String) : String := (trimChars s.toList).asString

/-- Model of `String.prototype.split(sep)` for a one-character separator
(splitting on `'\n'` for stderr chunks and on `'/'` for the frame-rate
field). -/
def splitChars (sep : Char) : List Char → List (List Char)
  | [] => [[]]
  | c :: cs =>
      if c = sep then [] :: splitChars sep cs
      else
        match splitChars sep cs with
        | [] => [[c]]
        | l :: ls => (c :: l) :: ls

/-- String wrapper of `splitChars`. -/
def jsSplit (sep : Char) (s : String) : List String :=
  (splitChars sep s.toList).map List.asString

/-- Literal-prefix matcher: if `cs` starts with `pat`, return the remainder. -/
def matchLit : List Char → List Char → Option (List Char)
  | [], cs => some cs
  | _ :: _, [] => none
  | p :: ps, c :: cs => if c = p then matchLit ps cs else none

/-- One match of the regex fragment found in `analyzeFrame` / `compareFrames`
(`lmstudio.ts`): three backticks, `json`, then an optional newline. -/
def matchJsonFence (cs : List Char) : Option (List Char) :=
  match matchLit ("```json".toList) cs with
  | some ('\n' :: r) => some r
  | some r => some r
  | none => none

/-- One match of the bare-fence regex (`lmstudio.ts`): three backticks then an
optional newline. -/
def matchBareFence (cs : List Char) : Option (List Char) :=
  match matchLit ("```".toList) cs with
  | some ('\n' :: r) => some r
  | some r => some r
  | none => none

/-- One match of the regex used by `analyzeSequence` (`lmstudio.ts` line 549):
three backticks, `json`, a newline, an optional space and a mandatory space
(the pattern as written there contains literal spaces). Greedy matching takes
two spaces when available, one otherwise, and fails with none. -/
def matchSeqJsonFence (cs : List Char) : Option (List Char) :=
  match matchLit ("```json".toList) cs with
  | some ('\n' :: ' ' :: ' ' :: r) => some r
  | some ('\n' :: ' ' :: r) => some r
  | _ => none

/-- Left-to-right global removal of every occurrence found by `m`, as
performed by `String.replace(regex, '')` with a global regex. Fuel is the
input length; every matcher above consumes at least one character per match,
so the fuel never runs out on the initial call. -/
def replaceScan (m : List Char → Option (List Char)) : ℕ → List Char → List Char
  | _, [] => []
  | 0, cs => cs
  | f + 1, c :: cs =>
    match m (c :: cs) with
    | some rest => replaceScan m f rest
    | none => c :: replaceScan m f cs

/-- Global regex removal on a string. -/
def jsReplaceAll (m : List Char → Option (List Char)) (s : String) : String :=
  (replaceScan m s.toList.length s.toList).asString

/-- Response cleanup shared by `analyzeFrame` and `compareFrames`:
`text.replace(/```json\n?/g, '').replace(/```\n?/g, '').trim()`. -/
def cleanResponseText (s : String) : String :=
  jsTrim (jsReplaceAll matchBareFence (jsReplaceAll matchJsonFence s))

/-- Response cleanup performed by `analyzeSequence` (`lmstudio.ts` 549), whose
first regex contains stray literal spaces. -/
def cleanSequenceResponseText (s : String) : String :=
  jsTrim (jsReplaceAll matchBareFence (jsReplaceAll matchSeqJsonFence s))

/-- Does `cs` start with `pat`. -/
def startsWithChars : List Char → List Char → Bool
  | [], _ => true
  | _ :: _, [] => false
  | p :: ps, c :: cs => c = p && startsWithChars ps cs

/-- Does `cs` contain `pat` as a contiguous substring. -/
def containsSub (pat : List Char) : List Char → Bool
  | [] => pat.isEmpty
  | c :: cs => startsWithChars pat (c :: cs) || containsSub pat cs

/-- Does `cs` end with `pat`. -/
def endsWithChars (pat cs : List Char) : Bool :=
  startsWithChars pat.reverse cs.reverse

/-- One attempted match of `/pre\s*(\d+)/` at the head of `cs`, returning the
captured digit group. -/
def matchNumCapture (pre : List Char) (cs : List Char) : Option (List Char) :=
  match matchLit pre cs with
  | some rest =>
      let ds := (rest.dropWhile Char.isWhitespace).takeWhile Char.isDigit
      if ds.isEmpty then none else some ds
  | none => none

/-- First match of `/pre\s*(\d+)/` anywhere in the line (regex `match`
semantics: scan positions left to right). -/
def searchNumCapture (pre : List Char) : List Char → Option (List Char)
  | [] => none
  | c :: cs =>
    match matchNumCapture pre (c :: cs) with
    | some ds => some ds
    | none => searchNumCapture pre cs

/-- One attempted match of `/pts_time:([\d.]+)/` at the head of `cs`. -/
def matchTimeCapture (cs : List Char) : Option (List Char) :=
  match matchLit ("pts_time:".toList) cs with
  | some rest =>
      let ds := rest.takeWhile (fun c => c.isDigit || c = '.')
      if ds.isEmpty then none else some ds
  | none => none

/-- First match of `/pts_time:([\d.]+)/` anywhere in the line. -/
def searchTimeCapture : List Char → Option (List Char)
  | [] => none
  | c :: cs =>
    match matchTimeCapture (c :: cs) with
    | some ds => some ds
    | none => searchTimeCapture cs

/-- A frame record produced by `extractSceneChanges` (`ffmpeg.ts`): the
metadata parsed from one showinfo log line plus the file path attached after
the process exits. `time = none` models a `NaN` from `parseFloat`. -/
structure SceneFrameRec where
  path : String
  frame : ℕ
  pts : ℕ
  time : Option ℚ
  deriving Repr, DecidableEq

/-- The per-line branch of the stderr handler in `extractSceneChanges`: a line
containing `[Parsed_showinfo` contributes a record exactly when all three
regexes match; `path` is filled in later. -/
def parseShowinfoLine (line : String) : Option SceneFrameRec :=
  let cs := line.toList
  if containsSub ("[Parsed_showinfo".toList) cs then
    match searchNumCapture ("n:".toList) cs, searchNumCapture ("pts:".toList) cs,
        searchTimeCapture cs with
    | some nds, some pds, some tds =>
        some { path := "", frame := digitsToNat nds, pts := digitsToNat pds,
               time := jsParseFloat (String.mk tds) }
    | _, _, _ => none
  else none

/-- The metadata list accumulated over the whole diagnostic stream: every
chunk is split on newlines and scanned in arrival order. -/
def parseShowinfoStream (chunks : List String) : List SceneFrameRec :=
  ((chunks.map (jsSplit '\n')).flatten).filterMap parseShowinfoLine

/-- The scene-output naming convention used by the directory listing filter in
`extractSceneChanges`. -/
def sceneFileFilter (f : String) : Bool :=
  startsWithChars "scene_".toList f.toList && endsWithChars ".png".toList f.toList

/-- Model of `readdirSync(outputDir).filter(...).sort()`. -/
def sceneFilesSorted (listing : List String) : List String :=
  jsSortStrings (listing.filter sceneFileFilter)

/-- Model of node's `path.join(dir, f)` for the POSIX separator. -/
def pathJoin (dir f : String) : String := if dir.isEmpty then f else dir ++ "/" ++ f

/-- Positional zip of metadata records with sorted filenames:
`frames.map((f, i) => ({...f, path: files[i] ? join(dir, files[i]) : ''}))`
followed by `.filter(f => f.path !== '')`, fused into one pass. -/
def attachScenePaths (dir : String) (files : List String) : ℕ → List SceneFrameRec → List SceneFrameRec
  | _, [] => []
  | i, m :: ms =>
      let p : String :=
        match files[i]? with
        | some f => if f.isEmpty then "" else pathJoin dir f
        | none => ""
      let rest := attachScenePaths dir files (i + 1) ms
      if p.isEmpty then rest else { m with path := p } :: rest

/-- The `close` handler of `extractSceneChanges`: exit code 0 resolves with
the positional zip of parsed metadata and sorted files; any other exit code
rejects. -/
def extractSceneChanges (code : ℤ) (outputDir : String) (stderrChunks : List String)
    (listing : List String) : Except String (List SceneFrameRec) :=
  if code = 0 then
    .ok (attachScenePaths outputDir (sceneFilesSorted listing) 0 (parseShowinfoStream stderrChunks))
  else
    .error ("FFmpeg exited with code " ++ toString code)

/-- The parsed fields of one ffprobe stream entry that `getVideoInfo`
(`ffmpeg.ts`) reads. Absent JSON fields are `none`. -/
structure ProbeStream where
  codec_type : String
  r_frame_rate : Option String
  width : Option ℕ
  height : Option ℕ
  codec_name : Option String
  deriving Repr, DecidableEq

/-- The parsed fields of the ffprobe `format` object that `getVideoInfo`
reads. -/
structure ProbeFormat where
  duration : Option String
  bit_rate : Option String
  deriving Repr, DecidableEq

/-- The `VideoInfo` record of `ffmpeg.ts`. Numeric fields are `Option`-typed
with `none` standing for a non-finite JavaScript number. -/
structure VideoInfo where
  duration : Option ℚ
  fps : Option ℚ
  width : ℕ
  height : ℕ
  codec : String
  totalFrames : Option ℤ
  bitrate : Option ℤ
  deriving Repr, DecidableEq

/-- Model of the JavaScript idiom `x || 'dflt'` on an optional string field:
`undefined` and the empty string are falsy. -/
def jsOrElse (o : Option String) (dflt : String) : String :=
  match o with
  | some s => if s.isEmpty then dflt else s
  | none => dflt

/-- The raw frame rate of `getVideoInfo`: `let fps = 0` overwritten when the
stream's `r_frame_rate` is truthy by `parseInt(num) / parseInt(den || '1')`
over the `'/'`-split parts. -/
def rawFps (r_frame_rate : Option String) : Option ℚ :=
  match r_frame_rate with
  | none => some 0
  | some s =>
      if s.isEmpty then some 0
      else
        let parts := jsSplit '/' s
        let num := parts.headD ""
        let den := jsOrElse parts[1]? "1"
        jsDiv ((jsParseInt num).map (fun z => (z : ℚ))) ((jsParseInt den).map (fun z => (z : ℚ)))

/-- The success branch of `getVideoInfo`'s `close` handler: find the first
video stream and assemble the `VideoInfo` object; reject when no stream has
`codec_type === 'video'`. -/
def getVideoInfo (streams : List ProbeStream) (format : ProbeFormat) : Except String VideoInfo :=
  match streams.find? (fun s => s.codec_type == "video") with
  | none => .error "No video stream found"
  | some vs =>
      let fps := rawFps vs.r_frame_rate
      let duration := jsParseFloat (jsOrElse format.duration "0")
      .ok {
        duration := duration
        fps := (jsRoundOpt (jsMul fps (some 100))).map (fun z => (z : ℚ) / 100)
        width := vs.width.getD 0
        height := vs.height.getD 0
        codec := jsOrElse vs.codec_name "unknown"
        totalFrames := jsRoundOpt (jsMul duration fps)
        bitrate := (jsParseInt (jsOrElse format.bit_rate "0")).map
          (fun z => jsRound ((z : ℚ) / 1000))
      }

/-- Embedding of `ComparisonResult` from `lmstudio.ts`. -/
structure ComparisonResult where
  action_description : String
  object_flow : String
  differences : List String
  confidence : Option ℚ
  deriving Repr, DecidableEq

/-- Embedding of `FrameComparisonResult` from `lmstudio.ts`: what one awaited
`compareFrames` call resolves with (it catches internally, so it always
resolves). -/
structure FrameComparisonResult where
  success : Bool
  frame1_path : String
  frame2_path : String
  comparison : Option ComparisonResult
  error : Option String
  deriving Repr, DecidableEq

/-- One element of the `results` array built by the `compare-sequential` IPC
handler (`main.ts`). -/
structure SequentialRecord where
  index : ℕ
  frame1 : String
  frame2 : String
  comparison : Option ComparisonResult
  error : Option String
  deriving Repr, DecidableEq

/-- The value the `compare-sequential` handler returns: either the early
`{success: false, error}` object or `{success: true, results}`. -/
structure SequentialResponse where
  success : Bool
  error : Option String
  results : Option (List SequentialRecord)
  deriving Repr, DecidableEq

/-- The `compare-sequential` IPC handler (`main.ts` / preload bundle,
lines 420-458). The LM Studio round trips are external: `cmp i` is the
`FrameComparisonResult` the `i`-th awaited `compareFrames` call resolves
with. The second component lists the `(frame1, frame2)` argument pairs of
the network-bound `compareFrames` invocations actually made, in call order. -/
def compareSequential (imagePaths : List String) (cmp : ℕ → FrameComparisonResult) :
    SequentialResponse × List (String × String) :=
  if imagePaths.length < 2 then
    ({ success := false,
       error := some "At least two frames are required for sequential analysis",
       results := none }, [])
  else
    let pairs := (List.range (imagePaths.length - 1)).map
      (fun i => (imagePaths.getD i "", imagePaths.getD (i + 1) ""))
    let records := (List.range (imagePaths.length - 1)).map
      (fun i =>
        { index := i
          frame1 := imagePaths.getD i ""
          frame2 := imagePaths.getD (i + 1) ""
          comparison := (cmp i).comparison
          error := (cmp i).error : SequentialRecord })
    ({ success := true, error := none, results := some records }, pairs)

/-- Embedding of `KeyEntity` from `lmstudio.ts`; the literal-union field types are kept as
strings. -/
structure KeyEntity where
  name : String
  type : String
  role : String
  description : String
  deriving Repr, DecidableEq

/-- Embedding of `StoryboardSignal` from `lmstudio.ts`. -/
structure StoryboardSignal where
  importance : ℚ
  agency : String
  irreversible : Bool
  emotional_shift_from : String
  emotional_shift_to : String
  deriving Repr, DecidableEq

/-- One panel of `PanelGuidance` in `lmstudio.ts`. -/
structure Panel where
  panel_index : ℕ
  role : String
  description : String
  best_frame_index : ℕ
  deriving Repr, DecidableEq

/-- Embedding of `PanelGuidance` from `lmstudio.ts`. -/
structure PanelGuidanceLM where
  panel_count : ℕ
  panels : List Panel
  omit_literal_action : Bool
  deriving Repr, DecidableEq

/-- The four-part summary object shared by both `SceneAnalysis` interfaces. -/
structure SceneSummary where
  what_happened : String
  change : String
  implied : String
  uncertainty : String
  deriving Repr, DecidableEq

/-- Embedding of `SceneAnalysis` from `lmstudio.ts` (the shape parsed from the model's
response in `analyzeSequence`). -/
structure SceneAnalysisLM where
  scene_id : String
  summary : SceneSummary
  key_entities : List KeyEntity
  story_signals : StoryboardSignal
  panel_guidance : PanelGuidanceLM
  confidence : ℚ
  deriving Repr, DecidableEq

/-- Embedding of `SequenceAnalysisResult` from `lmstudio.ts`. -/
structure SequenceAnalysisResult where
  success : Bool
  analysis : Option SceneAnalysisLM
  error : Option String
  deriving Repr, DecidableEq

/-- The deterministic scene identity computed at the end of `analyzeSequence`
(`lmstudio.ts` 553-558): sort a copy of the input paths, join with commas,
MD5, keep the first 12 hex characters behind the `scene_` prefix. The MD5
implementation is node's `crypto`, an external collaborator, so the hex
digest function is a parameter. -/
def sceneIdOf (md5hex : String → String) (framePaths : List String) : String :=
  "scene_" ++ ((md5hex (String.intercalate "," (jsSortStrings framePaths))).toList.take 12).asString

/-- Embedding of `analyzeSequence` (`lmstudio.ts` 434-567). The HTTP round trip, the
response-text cleanup and `JSON.parse` are summarised by `response`: the
parsed `SceneAnalysis` the try-block obtains, or the message of the error it
throws. The boolean records whether the fetch to the inference endpoint was
reached. -/
def analyzeSequence (md5hex : String → String) (framePaths : List String)
    (response : Except String SceneAnalysisLM) : SequenceAnalysisResult × Bool :=
  if framePaths.length < 2 then
    ({ success := false, analysis := none,
       error := some "Sequence analysis requires at least 2 frames." }, false)
  else
    match response with
    | .error e => ({ success := false, analysis := none, error := some e }, true)
    | .ok a =>
        ({ success := true,
           analysis := some { a with scene_id := sceneIdOf md5hex framePaths },
           error := none }, true)

/-- Embedding of `panel_guidance` as declared in `StoryboardView.tsx` (the renderer-side
`SceneAnalysis`, the type stored in the timeline). -/
structure PanelGuidanceUI where
  panel_count : ℚ
  panel_roles : List String
  omit_literal_action : Bool
  deriving Repr, DecidableEq

/-- Embedding of `SceneAnalysis` from `StoryboardView.tsx`: the record the renderer caches
and stores in the story timeline, enriched client-side with the originating
`frames` list and a `timestamp`. -/
structure SceneAnalysis where
  scene_id : String
  summary : SceneSummary
  key_entities : List KeyEntity
  story_signals : StoryboardSignal
  panel_guidance : PanelGuidanceUI
  confidence : ℚ
  frames : Option (List String)
  timestamp : Option String
  deriving Repr, DecidableEq

/-- Escape of one character inside a JSON string literal, as produced by
`JSON.stringify`. -/
def jsonEscapeChar (c : Char) : String :=
  if c = '"' then "\\\""
  else if c = '\\' then "\\\\"
  else if c = '\n' then "\\n"
  else if c = '\r' then "\\r"
  else if c = '\t' then "\\t"
  else if c.toNat = 8 then "\\b"
  else if c.toNat = 12 then "\\f"
  else if c.toNat < 32 then
    "\\u00" ++ (String.mk [(Nat.digitChar (c.toNat / 16)), (Nat.digitChar (c.toNat % 16))])
  else String.singleton c

/-- Model of `JSON.stringify` on a string. -/
def jsonQuote (s : String) : String :=
  "\"" ++ String.join (s.toList.map jsonEscapeChar) ++ "\""

/-- Model of `JSON.stringify` on an array of strings. -/
def jsonStringifyStringList (l : List String) : String :=
  "[" ++ String.intercalate "," (l.map jsonQuote) ++ "]"

/-- The cache check of `handleAnalyzeStory` (App component, 373-395):
`cachedAnalysis && cachedAnalysis.frames &&
JSON.stringify(cachedAnalysis.frames) === JSON.stringify(selectedPaths)`.
When this is false the handler clears the cache, so opening the storyboard
issues a fresh `analyzeStorySequence` request. -/
def handleAnalyzeStoryCacheValid (cachedAnalysis : Option SceneAnalysis)
    (selectedPaths : List String) : Bool :=
  match cachedAnalysis with
  | none => false
  | some c =>
      match c.frames with
      | none => false
      | some fs => jsonStringifyStringList fs == jsonStringifyStringList selectedPaths

/-- Model of `prev.findIndex(s => s.scene_id === analysis.scene_id)` as an optional
index. -/
def sceneFindIndex : List SceneAnalysis → String → Option ℕ
  | [], _ => none
  | s :: rest, sid =>
      if s.scene_id == sid then some 0 else (sceneFindIndex rest sid).map (· + 1)

/-- Embedding of `handleAnalysisComplete` (App component, 400-416): replace the first
timeline entry carrying the analysis's `scene_id` in place, or append. -/
def handleAnalysisComplete (prev : List SceneAnalysis) (analysis : SceneAnalysis) :
    List SceneAnalysis :=
  match sceneFindIndex prev analysis.scene_id with
  | some i => prev.set i analysis
  | none => prev ++ [analysis]

/-- Embedding of `handleRemoveFromTimeline` (App component, 450-452):
`prev.filter((_, i) => i !== index)`. -/
def handleRemoveFromTimeline (prev : List SceneAnalysis) (index : ℕ) : List SceneAnalysis :=
  (prev.enum.filter (fun p => p.1 != index)).map (fun p => p.2)

/-- The auto-save effect (App component, 103-112): it runs after each change
of `storyTimeline` and calls `saveStoryTimeline(filePath + '_extracted',
storyTimeline)` only when a file path is selected (truthy) and the timeline
is non-empty. `some (dir, tl)` is the persistence call made; `none` means no
write happens. -/
def autoSaveTimeline (filePath : Option String) (storyTimeline : List SceneAnalysis) :
    Option (String × List SceneAnalysis) :=
  match filePath with
  | none => none
  | some fp =>
      if fp.isEmpty then none
      else if storyTimeline.length > 0 then some (fp ++ "_extracted", storyTimeline)
      else none

/-- Embedding of `FrameData` from `ThumbnailGrid.tsx`, restricted to the fields the
extraction post-processing reads; `type` is kept as a string tag. -/
structure FrameData where
  path : String
  type : String
  frame : Option ℕ
  time : Option ℚ
  pts : Option ℕ
  deriving Repr, DecidableEq

/-- The comparator of `handleRunExtraction`'s final sort (App component,
245-247): `a.time && b.time ? a.time - b.time : a.path.localeCompare(b.path)`.
A `time` of `undefined` or `0` is falsy and falls through to the path
comparison. -/
def frameCompare (a b : FrameData) : ℚ :=
  if jsTruthy a.time && jsTruthy b.time then a.time.getD 0 - b.time.getD 0
  else (localeCompare a.path b.path : ℚ)

/-- The combined-mode sort `newFrames.sort((a, b) => ...)`. -/
def sortExtractedFrames (frames : List FrameData) : List FrameData :=
  jsSortBy (fun a b => decide (frameCompare a b ≤ 0)) frames

/-- A concrete scene record used by witnesses. -/
def sampleScene (sid : String) (fr : Option (List String)) : SceneAnalysis :=
  { scene_id := sid
    summary := { what_happened := "w", change := "c", implied := "i", uncertainty := "u" }
    key_entities := []
    story_signals := { importance := 5, agency := "action", irreversible := false,
                       emotional_shift_from := "calm", emotional_shift_to := "tense" }
    panel_guidance := { panel_count := 1, panel_roles := ["Setup"],
                        omit_literal_action := false }
    confidence := 1
    frames := fr
    timestamp := some "t" }

/-- A scene frame whose timestamp is zero (`pts_time:0`), as extraction can
deliver for a cut at the very start of the stream. -/
def zeroTimeFrame : FrameData :=
  { path := "b.png", type := "scene", frame := some 1, time := some 0, pts := some 0 }

/-- A time-sampled frame at one second. -/
def oneTimeFrame : FrameData :=
  { path := "a.png", type := "time", frame := some 1, time := some 1, pts := none }

/-- The probe stream used by the C9 witness and counterexample: a
one-frame-per-three-seconds rational rate. -/
def thirdFpsStream : ProbeStream :=
  { codec_type := "video", r_frame_rate := some "1/3", width := some 640,
    height := some 480, codec_name := some "h264" }

/-- The probe format used by the C9 witness and counterexample. -/
def thirdFpsFormat : ProbeFormat :=
  { duration := some "300", bit_rate := some "128000" }

theorem charListLt_cons_self (a : Char) (as bs : List Char) :
    charListLt (a :: as) (a :: bs) = charListLt as bs := by
  simp [charListLt, lt_irrefl]

theorem charListLt_trichotomy (x y : List Char) :
    charListLt x y = true ∨ x = y ∨ charListLt y x = true := by
  induction x generalizing y with
  | nil =>
      cases y with
      | nil => exact Or.inr (Or.inl rfl)
      | cons b bs => exact Or.inl rfl
  | cons a as ih =>
      cases y with
      | nil => exact Or.inr (Or.inr rfl)
      | cons b bs =>
          rcases lt_trichotomy a b with h | h | h
          · exact Or.inl (by simp [charListLt, h])
          · subst h
            rcases ih bs with h1 | h1 | h1
            · exact Or.inl (by rw [charListLt_cons_self]; exact h1)
            · exact Or.inr (Or.inl (by rw [h1]))
            · exact Or.inr (Or.inr (by rw [charListLt_cons_self]; exact h1))
          · exact Or.inr (Or.inr (by simp [charListLt, h]))

theorem charListLt_asymm (x y : List Char) (h : charListLt x y = true) :
    charListLt y x = false := by
  induction x generalizing y with
  | nil =>
      cases y with
      | nil => simp [charListLt] at h
      | cons b bs => simp [charListLt]
  | cons a as ih =>
      cases y with
      | nil => simp [charListLt] at h
      | cons b bs =>
          by_cases hab : a < b
          · have hba : ¬ b < a := lt_asymm hab
            simp [charListLt, hab, hba]
          · by_cases hba : b < a
            · simp [charListLt, hab, hba] at h
            · have heq : a = b := le_antisymm (not_lt.mp hba) (not_lt.mp hab)
              subst heq
              rw [charListLt_cons_self] at h ⊢
              exact ih bs h

theorem charListLt_trans (x y z : List Char) (h1 : charListLt x y = true)
    (h2 : charListLt y z = true) : charListLt x z = true := by
  induction x generalizing y z with
  | nil =>
      cases z with
      | nil =>
          cases y with
          | nil => simp [charListLt] at h1
          | cons b bs => simp [charListLt] at h2
      | cons c cs => simp [charListLt]
  | cons a as ih =>
      cases y with
      | nil => simp [charListLt] at h1
      | cons b bs =>
          cases z with
          | nil => simp [charListLt] at h2
          | cons c cs =>
              by_cases hab : a < b
              · by_cases hbc : b < c
                · simp [charListLt, lt_trans hab hbc]
                · by_cases hcb : c < b
                  · simp [charListLt, hbc, hcb] at h2
                  · have heq : b = c := le_antisymm (not_lt.mp hcb) (not_lt.mp hbc)
                    subst heq
                    simp [charListLt, hab]
              · by_cases hba : b < a
                · simp [charListLt, hab, hba] at h1
                · have heq : a = b := le_antisymm (not_lt.mp hba) (not_lt.mp hab)
                  subst heq
                  rw [charListLt_cons_self] at h1
                  by_cases hbc : a < c
                  · simp [charListLt, hbc]
                  · by_cases hcb : c < a
                    · simp [charListLt, hbc, hcb] at h2
                    · have heq2 : a = c := le_antisymm (not_lt.mp hcb) (not_lt.mp hbc)
                      subst heq2
                      rw [charListLt_cons_self] at h2 ⊢
                      exact ih bs cs h1 h2

theorem jsInsert_perm (le : α → α → Bool) (a : α) (l : List α) :
    List.Perm (jsInsert le a l) (a :: l) := by
  induction l with
  | nil => simp [jsInsert]
  | cons b t ih =>
      by_cases h : le a b = true
      · simp [jsInsert, h]
      · simp only [jsInsert, Bool.not_eq_true] at h ⊢
        rw [h]
        simp only [Bool.false_eq_true, if_false]
        exact List.Perm.trans (List.Perm.cons b ih) (List.Perm.swap a b t)

theorem jsSortBy_perm (le : α → α → Bool) (l : List α) :
    List.Perm (jsSortBy le l) l := by
  induction l with
  | nil => simp [jsSortBy]
  | cons a t ih =>
      exact List.Perm.trans (jsInsert_perm le a (jsSortBy le t)) (List.Perm.cons a ih)

theorem mem_jsSortBy {le : α → α → Bool} {l : List α} {x : α} :
    x ∈ jsSortBy le l ↔ x ∈ l :=
  (jsSortBy_perm le l).mem_iff

theorem jsInsert_congr {le le₂ : α → α → Bool} (a : α) (l : List α)
    (h : ∀ x ∈ l, le a x = le₂ a x) : jsInsert le a l = jsInsert le₂ a l := by
  induction l with
  | nil => rfl
  | cons b t ih =>
      have hb : le a b = le₂ a b := h b (List.mem_cons_self b t)
      by_cases hab : le₂ a b = true
      · simp [jsInsert, hb, hab]
      · simp only [Bool.not_eq_true] at hab
        simp [jsInsert, hb, hab, ih (fun x hx => h x (List.mem_cons_of_mem b hx))]

theorem jsSortBy_congr {le le₂ : α → α → Bool} (l : List α)
    (h : ∀ x ∈ l, ∀ y ∈ l, le x y = le₂ x y) : jsSortBy le l = jsSortBy le₂ l := by
  induction l with
  | nil => rfl
  | cons a t ih =>
      have hs : jsSortBy le t = jsSortBy le₂ t :=
        ih (fun x hx y hy => h x (List.mem_cons_of_mem a hx) y (List.mem_cons_of_mem a hy))
      simp only [jsSortBy, hs]
      exact jsInsert_congr a (jsSortBy le₂ t) (fun x hx =>
        h a (List.mem_cons_self a t) x
          (List.mem_cons_of_mem a (mem_jsSortBy.mp hx)))

theorem jsInsert_pairwise {le : α → α → Bool}
    (htot : ∀ a b, le a b = true ∨ le b a = true)
    (htrans : ∀ a b c, le a b = true → le b c = true → le a c = true)
    (a : α) (l : List α) (hl : l.Pairwise (fun x y => le x y = true)) :
    (jsInsert le a l).Pairwise (fun x y => le x y = true) := by
  induction l with
  | nil => simp [jsInsert]
  | cons b t ih =>
      rcases List.pairwise_cons.mp hl with ⟨hb, ht⟩
      by_cases h : le a b = true
      · simp only [jsInsert, h, if_true]
        refine List.pairwise_cons.mpr ⟨?_, hl⟩
        intro x hx
        rcases List.mem_cons.mp hx with rfl | hx
        · exact h
        · exact htrans a b x h (hb x hx)
      · simp only [jsInsert, h, if_false]
        refine List.pairwise_cons.mpr ⟨?_, ih ht⟩
        intro x hx
        rcases List.mem_cons.mp ((jsInsert_perm le a t).mem_iff.mp hx) with hxa | h2
        · rw [hxa]
          rcases htot a b with h1 | h1
          · exact absurd h1 h
          · exact h1
        · exact hb x h2

theorem jsSortBy_pairwise (le : α → α → Bool)
    (htot : ∀ a b, le a b = true ∨ le b a = true)
    (htrans : ∀ a b c, le a b = true → le b c = true → le a c = true)
    (l : List α) :
    (jsSortBy le l).Pairwise (fun x y => le x y = true) := by
  induction l with
  | nil => simp [jsSortBy]
  | cons a t ih => exact jsInsert_pairwise htot htrans a (jsSortBy le t) ih

theorem strLe_total (a b : String) : strLe a b = true ∨ strLe b a = true := by
  unfold strLe
  by_cases h : charListLt b.toList a.toList = true
  · right
    rw [charListLt_asymm _ _ h]
    rfl
  · left
    rw [Bool.not_eq_true] at h
    rw [h]
    rfl

theorem strLe_trans (a b c : String) (h1 : strLe a b = true) (h2 : strLe b c = true) :
    strLe a c = true := by
  unfold strLe at h1 h2 ⊢
  rw [Bool.not_eq_true'] at h1 h2 ⊢
  by_contra hca
  rw [Bool.not_eq_false] at hca
  rcases charListLt_trichotomy a.toList b.toList with h | h | h
  · have := charListLt_trans _ _ _ hca h
    rw [this] at h2
    exact absurd h2 (by simp)
  · rw [h] at hca
    rw [hca] at h2
    exact absurd h2 (by simp)
  · rw [h] at h1
    exact absurd h1 (by simp)

theorem string_toList_inj {x y : String} (h : x.toList = y.toList) : x = y := by
  cases x
  cases y
  simp only [String.toList] at h
  rw [h]

theorem strLe_antisymm (a b : String) (h1 : strLe a b = true) (h2 : strLe b a = true) :
    a = b := by
  unfold strLe at h1 h2
  rw [Bool.not_eq_true'] at h1 h2
  rcases charListLt_trichotomy a.toList b.toList with h | h | h
  · rw [h] at h2
    exact absurd h2 (by simp)
  · exact string_toList_inj h
  · rw [h] at h1
    exact absurd h1 (by simp)

theorem jsSortStrings_perm (l : List String) : List.Perm (jsSortStrings l) l :=
  jsSortBy_perm strLe l

theorem jsSortStrings_sorted (l : List String) :
    (jsSortStrings l).Pairwise (fun a b => strLe a b = true) :=
  jsSortBy_pairwise strLe strLe_total strLe_trans l

/-- Two permutations of the same string list sort to the same list. -/
theorem jsSortStrings_eq_of_perm {l l' : List String} (h : List.Perm l l') :
    jsSortStrings l = jsSortStrings l' := by
  have hperm : List.Perm (jsSortStrings l) (jsSortStrings l') :=
    ((jsSortStrings_perm l).trans h).trans (jsSortStrings_perm l').symm
  haveI : IsAntisymm String (fun a b => strLe a b = true) := ⟨strLe_antisymm⟩
  exact List.eq_of_perm_of_sorted hperm (jsSortStrings_sorted l) (jsSortStrings_sorted l')

/-- C1: for every ordered list of at least two frame paths and every outcome
of the external comparison calls, the `compare-sequential` handler reports
success and returns exactly `N − 1` records in order; the record at position
`i` carries pair index `i`, frames `i` and `i + 1`, and the `i`-th call's
comparison or error, so one pair's failure leaves every other pair's record
intact. -/
theorem compareSequential_pairs_spec (imagePaths : List String)
    (cmp : ℕ → FrameComparisonResult) (h : 2 ≤ imagePaths.length) :
    (compareSequential imagePaths cmp).1.success = true ∧
    ∃ rs, (compareSequential imagePaths cmp).1.results = some rs ∧
      rs.length = imagePaths.length - 1 ∧
      ∀ i, i < imagePaths.length - 1 →
        rs[i]? = some { index := i, frame1 := imagePaths.getD i "",
                        frame2 := imagePaths.getD (i + 1) "",
                        comparison := (cmp i).comparison, error := (cmp i).error } := by
  have hnot : ¬ imagePaths.length < 2 := not_lt.mpr h
  refine ⟨by simp [compareSequential, hnot], ?_⟩
  refine ⟨(List.range (imagePaths.length - 1)).map
      (fun i => { index := i, frame1 := imagePaths.getD i "",
                  frame2 := imagePaths.getD (i + 1) "",
                  comparison := (cmp i).comparison, error := (cmp i).error }),
    by simp [compareSequential, hnot], by simp, ?_⟩
  intro i hi
  simp [hi]

/-- Witness for C1 at three concrete paths with a failing comparison oracle. -/
theorem compareSequential_pairs_spec_witness :
    2 ≤ (["a", "b", "c"] : List String).length ∧
    ((compareSequential ["a", "b", "c"]
        (fun _ => { success := false, frame1_path := "", frame2_path := "",
                    comparison := none, error := some "boom" })).1.success = true ∧
     ∃ rs, (compareSequential ["a", "b", "c"]
        (fun _ => { success := false, frame1_path := "", frame2_path := "",
                    comparison := none, error := some "boom" })).1.results = some rs ∧
      rs.length = (["a", "b", "c"] : List String).length - 1 ∧
      ∀ i, i < (["a", "b", "c"] : List String).length - 1 →
        rs[i]? = some { index := i, frame1 := (["a", "b", "c"] : List String).getD i "",
                        frame2 := (["a", "b", "c"] : List String).getD (i + 1) "",
                        comparison := none, error := some "boom" }) :=
  ⟨by decide, compareSequential_pairs_spec ["a", "b", "c"] _ (by decide)⟩

/-- C2: with fewer than two frame paths, the `compare-sequential` handler
answers `{success: false, error}` and performs no `compareFrames` call, so
the endpoint is never contacted; `analyzeSequence` likewise fails before its
fetch is reached. -/
theorem compareSequential_insufficient_frames (imagePaths : List String)
    (cmp : ℕ → FrameComparisonResult) (h : imagePaths.length < 2) :
    (compareSequential imagePaths cmp).1 =
      { success := false,
        error := some "At least two frames are required for sequential analysis",
        results := none } ∧
    (compareSequential imagePaths cmp).2 = [] ∧
    ∀ (md5hex : String → String) (response : Except String SceneAnalysisLM),
      (analyzeSequence md5hex imagePaths response).1 =
        { success := false, analysis := none,
          error := some "Sequence analysis requires at least 2 frames." } ∧
      (analyzeSequence md5hex imagePaths response).2 = false := by
  refine ⟨by simp [compareSequential, h], by simp [compareSequential, h], ?_⟩
  intro md5hex response
  exact ⟨by simp [analyzeSequence, h], by simp [analyzeSequence, h]⟩

/-- Witness for C2 on a one-element input. -/
theorem compareSequential_insufficient_frames_witness :
    (["only"] : List String).length < 2 ∧
    ((compareSequential ["only"] (fun _ => { success := false, frame1_path := "", frame2_path := "", comparison := none, error := none })).1 =
      { success := false,
        error := some "At least two frames are required for sequential analysis",
        results := none } ∧
    (compareSequential ["only"] (fun _ => { success := false, frame1_path := "", frame2_path := "", comparison := none, error := none })).2 = [] ∧
    ∀ (md5hex : String → String) (response : Except String SceneAnalysisLM),
      (analyzeSequence md5hex ["only"] response).1 =
        { success := false, analysis := none,
          error := some "Sequence analysis requires at least 2 frames." } ∧
      (analyzeSequence md5hex ["only"] response).2 = false) :=
  ⟨by decide, compareSequential_insufficient_frames ["only"] _ (by decide)⟩

theorem pathJoin_not_empty {dir f : String} (hf : f.isEmpty = false) :
    (pathJoin dir f).isEmpty = false := by
  unfold pathJoin
  by_cases hd : dir.isEmpty = true
  · simpa [hd]
  · simp only [Bool.not_eq_true] at hd
    simp only [hd, Bool.false_eq_true, if_false]
    rw [Bool.eq_false_iff]
    intro hcon
    have hstr : dir ++ "/" ++ f = "" := (String.isEmpty_iff _).mp hcon
    have hlen : (dir ++ "/" ++ f).length = 0 := by rw [hstr]; rfl
    rw [String.length_append, String.length_append] at hlen
    have h1 : ("/" : String).length = 1 := rfl
    omega

theorem mem_sceneFilesSorted_not_empty {listing : List String} {f : String}
    (hf : f ∈ sceneFilesSorted listing) : f.isEmpty = false := by
  have hmem : f ∈ listing.filter sceneFileFilter := mem_jsSortBy.mp hf
  have hflt : sceneFileFilter f = true := (List.mem_filter.mp hmem).2
  rw [Bool.eq_false_iff]
  intro hcon
  rw [(String.isEmpty_iff _).mp hcon] at hflt
  exact absurd hflt (by decide)

theorem attachScenePaths_of_files_exhausted (dir : String) (files : List String) :
    ∀ (ms : List SceneFrameRec) (i : ℕ), files.length ≤ i →
      attachScenePaths dir files i ms = [] := by
  intro ms
  induction ms with
  | nil => intro i _; rfl
  | cons m t ih =>
      intro i hi
      have hnone : files[i]? = none := List.getElem?_eq_none hi
      have hemp : ("" : String).isEmpty = true := rfl
      simp [attachScenePaths, hnone, ih (i + 1) (by omega), hemp]

theorem attachScenePaths_spec (dir : String) (files : List String)
    (hne : ∀ f ∈ files, f.isEmpty = false) :
    ∀ (ms : List SceneFrameRec) (i : ℕ),
      (attachScenePaths dir files i ms).length = min ms.length (files.length - i) ∧
      ∀ j m f, ms[j]? = some m → files[i + j]? = some f →
        (attachScenePaths dir files i ms)[j]? = some { m with path := pathJoin dir f } := by
  intro ms
  induction ms with
  | nil =>
      intro i
      refine ⟨by simp [attachScenePaths], ?_⟩
      intro j m f hm _
      simp at hm
  | cons m t ih =>
      intro i
      by_cases hi : i < files.length
      · obtain ⟨f₀, hf₀⟩ : ∃ f₀, files[i]? = some f₀ :=
          ⟨files[i], List.getElem?_eq_getElem hi⟩
        have hf₀ne : f₀.isEmpty = false :=
          hne f₀ (List.getElem?_mem hf₀)
        have hpne : (pathJoin dir f₀).isEmpty = false := pathJoin_not_empty hf₀ne
        have hunfold : attachScenePaths dir files i (m :: t) =
            { m with path := pathJoin dir f₀ } :: attachScenePaths dir files (i + 1) t := by
          simp [attachScenePaths, hf₀, hf₀ne, hpne]
        refine ⟨?_, ?_⟩
        · rw [hunfold]
          have hlen := (ih (i + 1)).1
          simp only [List.length_cons, hlen]
          omega
        · intro j mj fj hmj hfj
          rw [hunfold]
          cases j with
          | zero =>
              simp only [List.getElem?_cons_zero, Option.some.injEq] at hmj ⊢
              have : fj = f₀ := by
                rw [Nat.add_zero] at hfj
                rw [hfj] at hf₀
                exact (Option.some.injEq _ _).mp hf₀.symm |>.symm
              rw [← hmj, this]
          | succ j' =>
              simp only [List.getElem?_cons_succ] at hmj ⊢
              have hfj' : files[(i + 1) + j']? = some fj := by
                have : (i + 1) + j' = i + (j' + 1) := by omega
                rw [this]; exact hfj
              exact (ih (i + 1)).2 j' mj fj hmj hfj'
      · have hle : files.length ≤ i := by omega
        rw [attachScenePaths_of_files_exhausted dir files (m :: t) i hle]
        refine ⟨by simp; omega, ?_⟩
        intro j mj fj _ hfj
        have : files[i + j]? = none := List.getElem?_eq_none (by omega)
        rw [this] at hfj
        exact absurd hfj (by simp)

/-- C3: when the diagnostic stream yields exactly `K` showinfo records and
the output directory holds exactly `K` files matching the scene naming
convention, `extractSceneChanges` resolves with exactly `K` records, the
`i`-th carrying the `i`-th log line's time and pts and the `i`-th sorted
filename's path. -/
theorem extractSceneChanges_positional_correlation (outputDir : String)
    (stderrChunks listing : List String) (K : ℕ)
    (hm : (parseShowinfoStream stderrChunks).length = K)
    (hf : (sceneFilesSorted listing).length = K) :
    ∃ recs, extractSceneChanges 0 outputDir stderrChunks listing = .ok recs ∧
      recs.length = K ∧
      ∀ i, i < K → ∃ m f,
        (parseShowinfoStream stderrChunks)[i]? = some m ∧
        (sceneFilesSorted listing)[i]? = some f ∧
        recs[i]? = some { m with path := pathJoin outputDir f } := by
  have hne : ∀ f ∈ sceneFilesSorted listing, f.isEmpty = false :=
    fun f hf => mem_sceneFilesSorted_not_empty hf
  have hspec := attachScenePaths_spec outputDir (sceneFilesSorted listing) hne
    (parseShowinfoStream stderrChunks) 0
  refine ⟨attachScenePaths outputDir (sceneFilesSorted listing) 0 (parseShowinfoStream stderrChunks),
    by simp [extractSceneChanges], ?_, ?_⟩
  · rw [hspec.1, hm, hf]
    omega
  · intro i hi
    refine ⟨(parseShowinfoStream stderrChunks)[i], (sceneFilesSorted listing)[i],
      List.getElem?_eq_getElem (by omega), List.getElem?_eq_getElem (by omega), ?_⟩
    exact hspec.2 i _ _ (List.getElem?_eq_getElem (by omega))
      (by rw [Nat.zero_add]; exact List.getElem?_eq_getElem (by omega))

/-- Witness for C3: two showinfo lines, two scene files listed out of order
alongside an unrelated file. -/
theorem extractSceneChanges_positional_correlation_witness :
    ((parseShowinfoStream
        ["[Parsed_showinfo_1 @ 0x1] n:   0 pts:    512 pts_time:0.512 \n[Parsed_showinfo_1 @ 0x1] n:   1 pts:   1024 pts_time:1.024 \nframe= 2"]).length = 2 ∧
     (sceneFilesSorted ["scene_0002.png", "notes.txt", "scene_0001.png"]).length = 2) ∧
    ∃ recs, extractSceneChanges 0 "/out"
        ["[Parsed_showinfo_1 @ 0x1] n:   0 pts:    512 pts_time:0.512 \n[Parsed_showinfo_1 @ 0x1] n:   1 pts:   1024 pts_time:1.024 \nframe= 2"]
        ["scene_0002.png", "notes.txt", "scene_0001.png"] = .ok recs ∧
      recs.length = 2 ∧
      ∀ i, i < 2 → ∃ m f,
        (parseShowinfoStream
          ["[Parsed_showinfo_1 @ 0x1] n:   0 pts:    512 pts_time:0.512 \n[Parsed_showinfo_1 @ 0x1] n:   1 pts:   1024 pts_time:1.024 \nframe= 2"])[i]? = some m ∧
        (sceneFilesSorted ["scene_0002.png", "notes.txt", "scene_0001.png"])[i]? = some f ∧
        recs[i]? = some { m with path := pathJoin "/out" f } :=
  ⟨⟨by decide, by decide⟩,
   extractSceneChanges_positional_correlation "/out" _ _ 2 (by decide) (by decide)⟩

/-- C10: when the numbers `M` of parsed showinfo records and `F` of matching
files differ, `extractSceneChanges` still resolves (exit code 0 raises no
error on the mismatch) with exactly `min M F` records, each still combining
the `i`-th log record with the `i`-th sorted file: the surplus of either
side is silently dropped. -/
theorem extractSceneChanges_mismatch_truncates (outputDir : String)
    (stderrChunks listing : List String) (M F : ℕ)
    (hm : (parseShowinfoStream stderrChunks).length = M)
    (hf : (sceneFilesSorted listing).length = F)
    (hMF : M ≠ F) :
    ∃ recs, extractSceneChanges 0 outputDir stderrChunks listing = .ok recs ∧
      recs.length = min M F ∧
      ∀ i, i < min M F → ∃ m f,
        (parseShowinfoStream stderrChunks)[i]? = some m ∧
        (sceneFilesSorted listing)[i]? = some f ∧
        recs[i]? = some { m with path := pathJoin outputDir f } := by
  have hne : ∀ f ∈ sceneFilesSorted listing, f.isEmpty = false :=
    fun f hf => mem_sceneFilesSorted_not_empty hf
  have hspec := attachScenePaths_spec outputDir (sceneFilesSorted listing) hne
    (parseShowinfoStream stderrChunks) 0
  refine ⟨attachScenePaths outputDir (sceneFilesSorted listing) 0 (parseShowinfoStream stderrChunks),
    by simp [extractSceneChanges], ?_, ?_⟩
  · rw [hspec.1, hm, hf]
    omega
  · intro i hi
    refine ⟨(parseShowinfoStream stderrChunks)[i], (sceneFilesSorted listing)[i],
      List.getElem?_eq_getElem (by omega), List.getElem?_eq_getElem (by omega), ?_⟩
    exact hspec.2 i _ _ (List.getElem?_eq_getElem (by omega))
      (by rw [Nat.zero_add]; exact List.getElem?_eq_getElem (by omega))

/-- Witness for C10: one showinfo line against two scene files. -/
theorem extractSceneChanges_mismatch_truncates_witness :
    ((parseShowinfoStream
        ["[Parsed_showinfo_1 @ 0x1] n: 0 pts: 512 pts_time:0.512 "]).length = 1 ∧
     (sceneFilesSorted ["scene_0002.png", "scene_0001.png"]).length = 2 ∧ (1 : ℕ) ≠ 2) ∧
    ∃ recs, extractSceneChanges 0 "/out"
        ["[Parsed_showinfo_1 @ 0x1] n: 0 pts: 512 pts_time:0.512 "]
        ["scene_0002.png", "scene_0001.png"] = .ok recs ∧
      recs.length = min 1 2 ∧
      ∀ i, i < min 1 2 → ∃ m f,
        (parseShowinfoStream
          ["[Parsed_showinfo_1 @ 0x1] n: 0 pts: 512 pts_time:0.512 "])[i]? = some m ∧
        (sceneFilesSorted ["scene_0002.png", "scene_0001.png"])[i]? = some f ∧
        recs[i]? = some { m with path := pathJoin "/out" f } :=
  ⟨⟨by decide, by decide, by decide⟩,
   extractSceneChanges_mismatch_truncates "/out" _ _ 1 2 (by decide) (by decide) (by decide)⟩

/-- C4: scene identity is invariant under reordering of the frame-path set
(the id hashes the sorted, comma-joined paths, whatever digest function the
external crypto library implements), while the client cache compares the
serialized path lists, which demands exact order equality: the same set in a
different order fails the cache check (and so triggers a fresh request),
even though its scene id coincides. -/
theorem sceneId_order_invariant_cache_order_sensitive :
    (∀ (md5hex : String → String) (l l' : List String), List.Perm l l' →
        sceneIdOf md5hex l = sceneIdOf md5hex l') ∧
    (∀ (c : SceneAnalysis) (sel : List String), c.frames = some sel →
        handleAnalyzeStoryCacheValid (some c) sel = true) ∧
    (∀ (c : SceneAnalysis), c.frames = some ["a", "b", "c"] →
        handleAnalyzeStoryCacheValid (some c) ["c", "a", "b"] = false) ∧
    (∀ md5hex : String → String,
        sceneIdOf md5hex ["a", "b", "c"] = sceneIdOf md5hex ["c", "a", "b"]) := by
  have hinv : ∀ (md5hex : String → String) (l l' : List String), List.Perm l l' →
      sceneIdOf md5hex l = sceneIdOf md5hex l' := by
    intro md5hex l l' h
    unfold sceneIdOf
    rw [jsSortStrings_eq_of_perm h]
  refine ⟨hinv, ?_, ?_, ?_⟩
  · intro c sel h
    simp only [handleAnalyzeStoryCacheValid, h]
    simp
  · intro c h
    simp only [handleAnalyzeStoryCacheValid, h]
    decide
  · intro md5hex
    exact hinv md5hex _ _ (by decide)

/-- Witness for C4: a two-path selection reordered. -/
theorem sceneId_order_invariant_cache_order_sensitive_witness :
    List.Perm ["b", "a"] ["a", "b"] ∧
    sceneIdOf (fun s => s) ["b", "a"] = sceneIdOf (fun s => s) ["a", "b"] :=
  ⟨by decide, sceneId_order_invariant_cache_order_sensitive.1 (fun s => s) ["b", "a"]
      ["a", "b"] (by decide)⟩

theorem sceneFindIndex_lt_length {tl : List SceneAnalysis} {sid : String} {i : ℕ}
    (h : sceneFindIndex tl sid = some i) : i < tl.length := by
  induction tl generalizing i with
  | nil => simp [sceneFindIndex] at h
  | cons s rest ih =>
      by_cases hs : (s.scene_id == sid) = true
      · simp only [sceneFindIndex, hs, if_true, Option.some.injEq] at h
        simp [← h]
      · simp only [sceneFindIndex, hs, Bool.false_eq_true, if_false, Option.map_eq_some'] at h
        obtain ⟨j, hj, rfl⟩ := h
        have := ih hj
        simp
        omega

theorem sceneFindIndex_eq_none_iff {tl : List SceneAnalysis} {sid : String} :
    sceneFindIndex tl sid = none ↔ ∀ s ∈ tl, s.scene_id ≠ sid := by
  induction tl with
  | nil => simp [sceneFindIndex]
  | cons s rest ih =>
      by_cases hs : (s.scene_id == sid) = true
      · simp only [sceneFindIndex, hs, if_true]
        constructor
        · intro h; exact absurd h (by simp)
        · intro h
          exact absurd (beq_iff_eq.mp hs) (h s (List.mem_cons_self s rest))
      · simp only [sceneFindIndex, hs, Bool.false_eq_true, if_false, Option.map_eq_none']
        rw [ih]
        constructor
        · intro h x hx
          rcases List.mem_cons.mp hx with hxs | hxr
          · rw [hxs]
            intro hcon
            exact hs (beq_iff_eq.mpr hcon)
          · exact h x hxr
        · intro h x hx
          exact h x (List.mem_cons_of_mem s hx)

/-- C5: merging an analysis whose `scene_id` matches an existing timeline
entry replaces exactly that entry at its position, preserving the length and
every other entry; if no entry carries the id the analysis is appended. -/
theorem handleAnalysisComplete_replace_or_append (tl : List SceneAnalysis)
    (a : SceneAnalysis) :
    (∀ i, sceneFindIndex tl a.scene_id = some i →
        (handleAnalysisComplete tl a).length = tl.length ∧
        (handleAnalysisComplete tl a)[i]? = some a ∧
        ∀ j, j ≠ i → (handleAnalysisComplete tl a)[j]? = tl[j]?) ∧
    ((∀ s ∈ tl, s.scene_id ≠ a.scene_id) → handleAnalysisComplete tl a = tl ++ [a]) := by
  constructor
  · intro i hi
    unfold handleAnalysisComplete
    rw [hi]
    refine ⟨List.length_set .., ?_, ?_⟩
    · exact List.getElem?_set_eq_of_lt a (sceneFindIndex_lt_length hi)
    · intro j hj
      exact List.getElem?_set_ne (by omega)
  · intro h
    unfold handleAnalysisComplete
    rw [sceneFindIndex_eq_none_iff.mpr h]

/-- Witness for C5: re-merging into a two-entry timeline replaces the second
entry. -/
theorem handleAnalysisComplete_replace_or_append_witness :
    sceneFindIndex [sampleScene "scene_x" none, sampleScene "scene_y" none]
        (sampleScene "scene_y" (some ["p"])).scene_id = some 1 ∧
    ((handleAnalysisComplete [sampleScene "scene_x" none, sampleScene "scene_y" none]
        (sampleScene "scene_y" (some ["p"]))).length =
      ([sampleScene "scene_x" none, sampleScene "scene_y" none] : List SceneAnalysis).length ∧
     (handleAnalysisComplete [sampleScene "scene_x" none, sampleScene "scene_y" none]
        (sampleScene "scene_y" (some ["p"])))[1]? = some (sampleScene "scene_y" (some ["p"])) ∧
     ∀ j, j ≠ 1 →
       (handleAnalysisComplete [sampleScene "scene_x" none, sampleScene "scene_y" none]
          (sampleScene "scene_y" (some ["p"])))[j]? =
       ([sampleScene "scene_x" none, sampleScene "scene_y" none] : List SceneAnalysis)[j]?) :=
  ⟨by decide,
   (handleAnalysisComplete_replace_or_append _ _).1 1 (by decide)⟩

theorem handleAnalysisComplete_ne_nil (tl : List SceneAnalysis) (a : SceneAnalysis) :
    handleAnalysisComplete tl a ≠ [] := by
  unfold handleAnalysisComplete
  cases hfind : sceneFindIndex tl a.scene_id with
  | none => simp
  | some i =>
      have hlt := sceneFindIndex_lt_length hfind
      intro hcon
      have hlen : tl.length = 0 := by
        have := congrArg List.length hcon
        rwa [List.length_set, List.length_nil] at this
      omega

/-- C6 counterexample: removing the only timeline entry is a mutation (the
timeline changes from one scene to none), yet the auto-save effect performs
no write for the mutated state, while the pre-mutation state had been
persisted — the on-disk timeline silently keeps the removed scene. -/
theorem timeline_emptying_removal_not_persisted :
    handleRemoveFromTimeline [sampleScene "scene_a" none] 0 = [] ∧
    autoSaveTimeline (some "v.mp4") (handleRemoveFromTimeline [sampleScene "scene_a" none] 0)
      = none ∧
    autoSaveTimeline (some "v.mp4") [sampleScene "scene_a" none]
      = some ("v.mp4_extracted", [sampleScene "scene_a" none]) := by
  refine ⟨by decide, by decide, by decide⟩

/-- C6 amended: while a video file is selected, the timeline is persisted to
the extraction output directory after every mutation that leaves it
non-empty — a merge always is, a removal is exactly when the remaining
timeline is non-empty; a removal that empties the timeline writes nothing. -/
theorem autoSaveTimeline_after_mutations (fp : String) (hfp : fp.isEmpty = false)
    (tl : List SceneAnalysis) :
    (∀ a, autoSaveTimeline (some fp) (handleAnalysisComplete tl a) =
        some (fp ++ "_extracted", handleAnalysisComplete tl a)) ∧
    (∀ i, handleRemoveFromTimeline tl i ≠ [] →
        autoSaveTimeline (some fp) (handleRemoveFromTimeline tl i) =
          some (fp ++ "_extracted", handleRemoveFromTimeline tl i)) ∧
    (∀ i, handleRemoveFromTimeline tl i = [] →
        autoSaveTimeline (some fp) (handleRemoveFromTimeline tl i) = none) := by
  refine ⟨?_, ?_, ?_⟩
  · intro a
    have hne := handleAnalysisComplete_ne_nil tl a
    have hpos : 0 < (handleAnalysisComplete tl a).length := List.length_pos.mpr hne
    simp [autoSaveTimeline, hfp, hpos]
  · intro i hne
    have hpos : 0 < (handleRemoveFromTimeline tl i).length := List.length_pos.mpr hne
    simp [autoSaveTimeline, hfp, hpos]
  · intro i hnil
    simp [autoSaveTimeline, hfp, hnil]

/-- Witness for C6 amended on a one-entry timeline. -/
theorem autoSaveTimeline_after_mutations_witness :
    ("v.mp4" : String).isEmpty = false ∧
    ((∀ a, autoSaveTimeline (some "v.mp4")
        (handleAnalysisComplete [sampleScene "scene_a" none] a) =
          some ("v.mp4" ++ "_extracted", handleAnalysisComplete [sampleScene "scene_a" none] a)) ∧
     (∀ i, handleRemoveFromTimeline [sampleScene "scene_a" none] i ≠ [] →
        autoSaveTimeline (some "v.mp4") (handleRemoveFromTimeline [sampleScene "scene_a" none] i) =
          some ("v.mp4" ++ "_extracted", handleRemoveFromTimeline [sampleScene "scene_a" none] i)) ∧
     (∀ i, handleRemoveFromTimeline [sampleScene "scene_a" none] i = [] →
        autoSaveTimeline (some "v.mp4")
          (handleRemoveFromTimeline [sampleScene "scene_a" none] i) = none)) :=
  ⟨by decide, autoSaveTimeline_after_mutations "v.mp4" (by decide) [sampleScene "scene_a" none]⟩

/-- C7: in the single-frame and pairwise paths the fence wrappers are
stripped before parsing, but the narrative-path cleanup (`lmstudio.ts` 549)
was written with stray spaces inside its first regex, so a response wrapped
in a ```json fence keeps a `json` residue there: the cleaned text differs
from the cleaned unwrapped text (and `JSON.parse` of a `json`-prefixed
string throws, failing the whole sequence analysis). The untagged ``` fence
is still handled. -/
theorem analyzeSequence_fence_strip_diverges :
    cleanResponseText "```json\n\x7b\"a\":1\x7d\n```" = "\x7b\"a\":1\x7d" ∧
    cleanResponseText "```\n\x7b\"a\":1\x7d\n```" = "\x7b\"a\":1\x7d" ∧
    cleanSequenceResponseText "\x7b\"a\":1\x7d" = "\x7b\"a\":1\x7d" ∧
    cleanSequenceResponseText "```\n\x7b\"a\":1\x7d\n```" = "\x7b\"a\":1\x7d" ∧
    cleanSequenceResponseText "```json\n\x7b\"a\":1\x7d\n```" = "json\n\x7b\"a\":1\x7d" ∧
    cleanSequenceResponseText "```json\n\x7b\"a\":1\x7d\n```" ≠
      cleanSequenceResponseText "\x7b\"a\":1\x7d" := by
  refine ⟨by decide, by decide, by decide, by decide, by decide, by decide⟩

theorem localeCompare_nonpos_iff (a b : String) :
    localeCompare a b ≤ 0 ↔ strLe a b = true := by
  unfold localeCompare strLe
  by_cases h1 : charListLt a.toList b.toList = true
  · rw [if_pos h1, charListLt_asymm _ _ h1]
    simp
  · rw [if_neg h1]
    by_cases h2 : charListLt b.toList a.toList = true
    · rw [if_pos h2, h2]
      simp
    · rw [if_neg h2, Bool.not_eq_true] at *
      rw [h2]
      simp

theorem frameCompare_fallback (a b : FrameData)
    (h : jsTruthy a.time = false ∨ jsTruthy b.time = false) :
    frameCompare a b = (localeCompare a.path b.path : ℚ) := by
  unfold frameCompare
  rcases h with h | h <;> simp [h]

theorem frameCompare_le_iff_path (x y : FrameData)
    (h : jsTruthy x.time = false ∨ jsTruthy y.time = false) :
    decide (frameCompare x y ≤ 0) = strLe x.path y.path := by
  rw [frameCompare_fallback x y h]
  have hiff : ((localeCompare x.path y.path : ℚ) ≤ 0) ↔ strLe x.path y.path = true := by
    rw [← localeCompare_nonpos_iff]
    exact_mod_cast Iff.rfl
  cases hb : strLe x.path y.path
  · apply decide_eq_false
    intro hc
    have := hiff.mp hc
    rw [hb] at this
    exact Bool.false_ne_true this
  · exact decide_eq_true (hiff.mpr hb)

/-- C8 amended: the combined frame list is a permutation of its input; it is
sorted by `time` ascending whenever every element carries a nonzero (truthy)
`time`; when no element carries a truthy `time` (each `time` is absent or
zero) it is sorted entirely by path in code-unit order; and for any pair in
which either side lacks a truthy `time`
the comparator falls back to path comparison. (The original claim without
the nonzero qualifier fails: `0` is falsy in JavaScript, so a frame with
`time = 0` is compared by path — see the counterexample.) -/
theorem sortExtractedFrames_ordering (frames : List FrameData) :
    List.Perm (sortExtractedFrames frames) frames ∧
    ((∀ f ∈ frames, jsTruthy f.time = true) →
        (sortExtractedFrames frames).Pairwise
          (fun a b => a.time.getD 0 ≤ b.time.getD 0)) ∧
    ((∀ f ∈ frames, jsTruthy f.time = false) →
        (sortExtractedFrames frames).Pairwise
          (fun a b => strLe a.path b.path = true)) ∧
    (∀ a b : FrameData, jsTruthy a.time = false ∨ jsTruthy b.time = false →
        frameCompare a b = (localeCompare a.path b.path : ℚ)) := by
  refine ⟨jsSortBy_perm _ frames, ?_, ?_, frameCompare_fallback⟩
  · intro hall
    have hcongr : sortExtractedFrames frames =
        jsSortBy (fun a b => decide (a.time.getD 0 ≤ b.time.getD 0)) frames := by
      unfold sortExtractedFrames
      apply jsSortBy_congr
      intro x hx y hy
      have hfc : frameCompare x y = x.time.getD 0 - y.time.getD 0 := by
        unfold frameCompare
        rw [hall x hx, hall y hy]
        simp
      rw [hfc]
      exact decide_eq_decide.mpr sub_nonpos
    rw [hcongr]
    have hp := jsSortBy_pairwise
      (fun a b => decide (a.time.getD 0 ≤ b.time.getD 0))
      (fun a b => by
        rcases le_total (a.time.getD 0) (b.time.getD 0) with h | h
        · exact Or.inl (decide_eq_true h)
        · exact Or.inr (decide_eq_true h))
      (fun a b c hab hbc =>
        decide_eq_true (le_trans (of_decide_eq_true hab) (of_decide_eq_true hbc)))
      frames
    exact hp.imp (fun h => of_decide_eq_true h)
  · intro hall
    have hcongr : sortExtractedFrames frames =
        jsSortBy (fun a b => strLe a.path b.path) frames := by
      unfold sortExtractedFrames
      apply jsSortBy_congr
      intro x hx y hy
      exact frameCompare_le_iff_path x y (Or.inl (hall x hx))
    rw [hcongr]
    exact jsSortBy_pairwise
      (fun a b => strLe a.path b.path)
      (fun a b => strLe_total a.path b.path)
      (fun a b c hab hbc => strLe_trans a.path b.path c.path hab hbc)
      frames

/-- C8 counterexample: both frames carry a `time`, yet because `0` is falsy
the pair is compared by path and the zero-time frame sorts *after* the
one-second frame — the result is not ordered by time ascending. -/
theorem sortExtractedFrames_zero_time_counterexample :
    (∀ f ∈ [zeroTimeFrame, oneTimeFrame], f.time ≠ none) ∧
    sortExtractedFrames [zeroTimeFrame, oneTimeFrame] = [oneTimeFrame, zeroTimeFrame] ∧
    ¬ (sortExtractedFrames [zeroTimeFrame, oneTimeFrame]).Pairwise
        (fun a b => a.time.getD 0 ≤ b.time.getD 0) := by
  have hlt : charListLt ['b', '.', 'p', 'n', 'g'] ['a', '.', 'p', 'n', 'g'] = false := by
    decide
  have hlt2 : charListLt ['a', '.', 'p', 'n', 'g'] ['b', '.', 'p', 'n', 'g'] = true := by
    decide
  have hcmp : frameCompare zeroTimeFrame oneTimeFrame = ((1 : ℤ) : ℚ) := by
    unfold frameCompare zeroTimeFrame oneTimeFrame jsTruthy localeCompare
    simp [hlt, hlt2]
  have hle : decide (frameCompare zeroTimeFrame oneTimeFrame ≤ 0) = false := by
    rw [hcmp]
    apply decide_eq_false
    norm_num
  have hsort : sortExtractedFrames [zeroTimeFrame, oneTimeFrame] =
      [oneTimeFrame, zeroTimeFrame] := by
    simp only [sortExtractedFrames, jsSortBy, jsInsert]
    rw [hle]
    simp
  refine ⟨by decide, hsort, ?_⟩
  rw [hsort]
  intro hp
  have hle10 := (List.pairwise_cons.mp hp).1 zeroTimeFrame (by simp)
  unfold oneTimeFrame zeroTimeFrame at hle10
  simp only [Option.getD_some] at hle10
  exact absurd hle10 (by norm_num)

/-- Witness for C8 on a two-frame list whose times are nonzero. -/
theorem sortExtractedFrames_ordering_witness :
    (∀ f ∈ [oneTimeFrame,
        ({ path := "c.png", type := "time", frame := some 2, time := some 2, pts := none }
          : FrameData)], jsTruthy f.time = true) ∧
    (sortExtractedFrames [oneTimeFrame,
        ({ path := "c.png", type := "time", frame := some 2, time := some 2, pts := none }
          : FrameData)]).Pairwise (fun a b => a.time.getD 0 ≤ b.time.getD 0) :=
  ⟨by decide, (sortExtractedFrames_ordering _).2.1 (by decide)⟩

/-- Closed form of `getVideoInfo` when the probed fields parse cleanly: the
recorded `fps` is the raw ratio rounded to two decimals, while `totalFrames`
rounds `duration` times the *unrounded* ratio. -/
theorem getVideoInfo_closed_form (streams : List ProbeStream) (format : ProbeFormat)
    (vs : ProbeStream) (hfind : streams.find? (fun s => s.codec_type == "video") = some vs)
    (s : String) (hs : vs.r_frame_rate = some s) (hsne : s.isEmpty = false)
    (n d : ℤ) (hn : jsParseInt ((jsSplit '/' s).headD "") = some n)
    (hd : jsParseInt (jsOrElse (jsSplit '/' s)[1]? "1") = some d)
    (hdz : ((d : ℚ)) ≠ 0)
    (q : ℚ) (hq : jsParseFloat (jsOrElse format.duration "0") = some q)
    (b : ℤ) (hb : jsParseInt (jsOrElse format.bit_rate "0") = some b) :
    getVideoInfo streams format = .ok {
      duration := some q
      fps := some (((jsRound (((n : ℚ) / (d : ℚ)) * 100)) : ℚ) / 100)
      width := vs.width.getD 0
      height := vs.height.getD 0
      codec := jsOrElse vs.codec_name "unknown"
      totalFrames := some (jsRound (q * ((n : ℚ) / (d : ℚ))))
      bitrate := some (jsRound ((b : ℚ) / 1000)) } := by
  have hraw : rawFps vs.r_frame_rate = some ((n : ℚ) / (d : ℚ)) := by
    rw [hs]
    simp only [rawFps, hsne, Bool.false_eq_true, if_false, hn, hd, Option.map_some]
    simp [jsDiv, hdz]
  unfold getVideoInfo
  rw [hfind]
  simp only [hraw, hq, hb, jsMul, jsRoundOpt, Option.map_some]
  simp

/-- C9 amended: `fps` in the returned `VideoInfo` is the reduced rational
frame rate rounded to two decimal places, `bitrate` is the parsed
container-level bit rate converted to kb/s (the field defaulting to `'0'`
when absent or empty), and `totalFrames = round(duration × fps_raw)` where
`fps_raw` is the *unrounded* reduced rational — not the two-decimal `fps`
value recorded in the `VideoInfo` (see the counterexample). -/
theorem getVideoInfo_derived_fields (streams : List ProbeStream) (format : ProbeFormat)
    (vs : ProbeStream) (hfind : streams.find? (fun s => s.codec_type == "video") = some vs)
    (s : String) (hs : vs.r_frame_rate = some s) (hsne : s.isEmpty = false)
    (n d : ℤ) (hn : jsParseInt ((jsSplit '/' s).headD "") = some n)
    (hd : jsParseInt (jsOrElse (jsSplit '/' s)[1]? "1") = some d)
    (hdz : ((d : ℚ)) ≠ 0)
    (q : ℚ) (hq : jsParseFloat (jsOrElse format.duration "0") = some q)
    (b : ℤ) (hb : jsParseInt (jsOrElse format.bit_rate "0") = some b) :
    getVideoInfo streams format = .ok {
      duration := some q
      fps := some (((jsRound (((n : ℚ) / (d : ℚ)) * 100)) : ℚ) / 100)
      width := vs.width.getD 0
      height := vs.height.getD 0
      codec := jsOrElse vs.codec_name "unknown"
      totalFrames := some (jsRound (q * ((n : ℚ) / (d : ℚ))))
      bitrate := some (jsRound ((b : ℚ) / 1000)) } :=
  getVideoInfo_closed_form streams format vs hfind s hs hsne n d hn hd hdz q hq b hb

theorem jsParseFloat_300 : jsParseFloat (jsOrElse thirdFpsFormat.duration "0") = some 300 := by
  have h : jsParseFloat (jsOrElse thirdFpsFormat.duration "0") =
      some (1 * ((digitsToNat ['3', '0', '0'] : ℚ) +
        (digitsToNat [] : ℚ) / (10 : ℚ) ^ (0 : ℕ))) := rfl
  rw [h, (by decide : digitsToNat ['3', '0', '0'] = 300),
    (by decide : digitsToNat ([] : List Char) = 0)]
  norm_num

/-- Witness for C9 at the concrete probe output `r_frame_rate = "1/3"`,
`duration = "300"`, `bit_rate = "128000"`. -/
theorem getVideoInfo_derived_fields_witness :
    [thirdFpsStream].find? (fun s => s.codec_type == "video") = some thirdFpsStream ∧
    getVideoInfo [thirdFpsStream] thirdFpsFormat = .ok {
      duration := some 300
      fps := some (((jsRound (((1 : ℚ) / (3 : ℚ)) * 100)) : ℚ) / 100)
      width := 640
      height := 480
      codec := jsOrElse thirdFpsStream.codec_name "unknown"
      totalFrames := some (jsRound (300 * ((1 : ℚ) / (3 : ℚ))))
      bitrate := some (jsRound ((128000 : ℚ) / 1000)) } :=
  ⟨by decide,
   getVideoInfo_derived_fields [thirdFpsStream] thirdFpsFormat thirdFpsStream (by decide)
     "1/3" (by decide) (by decide) 1 3 (by decide) (by decide) (by simp) 300
     jsParseFloat_300 128000 (by decide)⟩

/-- C9 counterexample: with `r_frame_rate = "1/3"` and `duration = 300`, the
code records `fps = 0.33` and `totalFrames = round(300 × (1/3)) = 100`, but
`round(duration × fps) = round(300 × 0.33) = 99`: `totalFrames` is *not*
derived from the `fps` value recorded in the returned `VideoInfo`. -/
theorem getVideoInfo_totalFrames_counterexample :
    ∃ info, getVideoInfo [thirdFpsStream] thirdFpsFormat = .ok info ∧
      info.fps = some (33 / 100) ∧
      info.duration = some 300 ∧
      info.totalFrames = some 100 ∧
      jsRoundOpt (jsMul info.duration info.fps) = some 99 ∧
      info.totalFrames ≠ jsRoundOpt (jsMul info.duration info.fps) := by
  have hok := getVideoInfo_closed_form [thirdFpsStream] thirdFpsFormat thirdFpsStream
    (by decide) "1/3" (by decide) (by decide) 1 3 (by decide) (by decide) (by simp) 300
    jsParseFloat_300 128000 (by decide)
  refine ⟨_, hok, ?_, rfl, ?_, ?_, ?_⟩
  · show some (((jsRound (((1 : ℚ) / (3 : ℚ)) * 100)) : ℚ) / 100) = some (33 / 100)
    have h33 : jsRound (((1 : ℚ) / (3 : ℚ)) * 100) = 33 := by
      unfold jsRound
      norm_num
    rw [h33]
    norm_num
  · show some (jsRound (300 * ((1 : ℚ) / (3 : ℚ)))) = some 100
    have h100 : jsRound (300 * ((1 : ℚ) / (3 : ℚ))) = 100 := by
      unfold jsRound
      norm_num
    rw [h100]
  · show jsRoundOpt (jsMul (some 300) (some (((jsRound (((1 : ℚ) / (3 : ℚ)) * 100)) : ℚ) / 100)))
      = some 99
    have h33 : jsRound (((1 : ℚ) / (3 : ℚ)) * 100) = 33 := by
      unfold jsRound
      norm_num
    rw [h33]
    simp only [jsMul, jsRoundOpt]
    have h99 : jsRound (300 * (((33 : ℤ) : ℚ) / 100)) = 99 := by
      unfold jsRound
      norm_num
    rw [h99]
  · show some (jsRound (300 * ((1 : ℚ) / (3 : ℚ)))) ≠
      jsRoundOpt (jsMul (some 300) (some (((jsRound (((1 : ℚ) / (3 : ℚ)) * 100)) : ℚ) / 100)))
    have h33 : jsRound (((1 : ℚ) / (3 : ℚ)) * 100) = 33 := by
      unfold jsRound
      norm_num
    have h100 : jsRound (300 * ((1 : ℚ) / (3 : ℚ))) = 100 := by
      unfold jsRound
      norm_num
    rw [h33, h100]
    simp only [jsMul, jsRoundOpt]
    have h99 : jsRound (300 * (((33 : ℤ) : ℚ) / 100)) = 99 := by
      unfold jsRound
      norm_num
    rw [h99]
    simp
